import Mathlib

/-!
Verification of `xrandrctl` (files `xrandr_controller.py`, `minixrandrctl.py`,
`xrandr_controller_simple.py`) against its natural-language specification.

The Python scripts are shallowly embedded: Python floats become `ℚ`, JSON
records become structures, the `arguments` dict of the multi-output variant
becomes an association list with Python-dict insert/lookup semantics, and the
run pipeline `get_current_values; set_new_values; run_xrandr; save_new_values`
becomes an explicit function from the loaded state, the parsed arguments and
the outcome of the external `xrandr` invocation to the observable result of
the run (exit status, whether the state file was read/written, its final
content, and the error messages sent to the log).
-/

/-- `int(b)` for a Python boolean used in arithmetic
(`int(options['bluer']) - int(options['redder'])` etc.). -/
def pyInt (b : Bool) : ℚ := if b then 1 else 0

/-- Python `s.startswith('-')`: true iff the first character is `'-'`.
(Used to classify a command-line token as an option rather than an output.) -/
def startsWithDash (s : String) : Bool :=
  match s.toList with
  | [] => false
  | c :: _ => c == '-'

/-- Python `s.strip('-')`: remove every leading and trailing `'-'`. -/
def stripDashes (s : String) : String :=
  String.mk (((s.toList.dropWhile (· == '-')).reverse.dropWhile (· == '-')).reverse)

/-- The four option flags of `XRandrController.ALLOWED_OPTIONS` in
`xrandr_controller.py` (shared by `xrandr_controller_simple.py`). -/
structure Options where
  redder : Bool
  bluer : Bool
  brighter : Bool
  dimmer : Bool
deriving Repr, DecidableEq

/-- `dict(XRandrController.ALLOWED_OPTIONS)`: every flag off. -/
def defaultOptions : Options :=
  { redder := false, bluer := false, brighter := false, dimmer := false }

/-- `arguments[output][option_stripped] = True` for a recognised option name;
`none` when `option_stripped not in arguments[output]` (the fatal case). -/
def setOption (options : Options) (name : String) : Option Options :=
  if name = "redder" then some { options with redder := true }
  else if name = "bluer" then some { options with bluer := true }
  else if name = "brighter" then some { options with brighter := true }
  else if name = "dimmer" then some { options with dimmer := true }
  else none

/-- Membership of a stripped option name in `ALLOWED_OPTIONS`. -/
def isAllowedOption (name : String) : Bool :=
  name == "redder" || name == "bluer" || name == "brighter" || name == "dimmer"

/-- One element of the JSON array in `xrandr_current_values.json`: a
dictionary describing one output.  `gamma_delta` and `brightness_delta` are
the optional per-output overrides of the default deltas. -/
structure OutputRecord where
  output : String
  «alias» : Option String
  gamma : List ℚ
  brightness : ℚ
  gamma_delta : Option (List ℚ)
  brightness_delta : Option ℚ
deriving Repr, DecidableEq

/-- `XRandrController.DEFAULT_BRIGHTNESS_DELTA = 0.1`. -/
def DEFAULT_BRIGHTNESS_DELTA : ℚ := 0.1

/-- `XRandrController.DEFAULT_GAMMA_DELTA = [0, 0.025, 0.05]`. -/
def DEFAULT_GAMMA_DELTA : List ℚ := [0, 0.025, 0.05]

/-- The `arguments` dictionary built by `main()`: output name (or `"all"`)
to its option flags, in insertion order. -/
def ArgDict : Type := List (String × Options)

/-- Python `key in d` / `d[key]` on the arguments dict: the value at `key`,
if present. -/
def dlookup : List (String × Options) → String → Option Options
  | [], _ => none
  | (k, v) :: rest, key => if k = key then some v else dlookup rest key

/-- Python `d[key] = val`: replace the value at `key` in place if present
(keeping its position), else append the new entry. -/
def dictInsert (d : List (String × Options)) (key : String) (val : Options) :
    List (String × Options) :=
  if d.any (fun p => p.1 = key) then
    d.map (fun p => if p.1 = key then (key, val) else p)
  else d ++ [(key, val)]

/-- The targeting chain at the top of the loop body of `set_new_values`:
`if alias in self.arguments: ... elif output_name in self.arguments: ...
elif 'all' in self.arguments: ... else: continue`. -/
def resolveOptions (arguments : ArgDict) (rec : OutputRecord) : Option Options :=
  match rec.«alias».bind (fun a => dlookup arguments a) with
  | some options => some options
  | none =>
    match dlookup arguments rec.output with
    | some options => some options
    | none => dlookup arguments "all"

/-- The numeric update applied to a targeted record in `set_new_values`:
per-record `gamma_delta`/`brightness_delta` if present (else the defaults),
signed by the option flags, added elementwise to `gamma` and to
`brightness`. -/
def applyOptions (options : Options) (rec : OutputRecord) : OutputRecord :=
  let gamma_delta := rec.gamma_delta.getD DEFAULT_GAMMA_DELTA
  let gamma_to_add :=
    gamma_delta.map (fun x => x * (pyInt options.bluer - pyInt options.redder))
  let gamma' := List.zipWith (· + ·) rec.gamma gamma_to_add
  let brightness_delta := rec.brightness_delta.getD DEFAULT_BRIGHTNESS_DELTA
  let brightness_to_add :=
    brightness_delta * (pyInt options.brighter - pyInt options.dimmer)
  { rec with gamma := gamma', brightness := rec.brightness + brightness_to_add }

/-- The full loop body of `set_new_values` for one record: resolve the
targeting chain, and leave the record untouched (`continue`) when no entry
applies. -/
def updateRecord (arguments : ArgDict) (rec : OutputRecord) : OutputRecord :=
  match resolveOptions arguments rec with
  | none => rec
  | some options => applyOptions options rec

/-- `XRandrController.set_new_values`: the loop over `self.current_values`,
each dictionary updated in place. -/
def set_new_values (arguments : ArgDict) (current_values : List OutputRecord) :
    List OutputRecord :=
  current_values.map (updateRecord arguments)

/-- The parse error raised by `main()` via `logger.error(...); sys.exit(1)`. -/
inductive ParseErr where
  /-- `'{} is an invalid option. Exiting.'` with the stripped option name. -/
  | invalidOption (name : String)
  /-- `minixrandrctl.py` only: a token that does not start with the option
  prefix (`Options must start with --`). -/
  | notAnOption
deriving Repr, DecidableEq

/-- The nested loops of `main()` in `xrandr_controller.py`, fused into one
pass: `d` is the `arguments` dict built so far, `cur`/`options` the output
name and flags of the group currently being collected.  A token starting
with `'-'` toggles a flag of the current group (or aborts if unrecognised);
any other token closes the current group (`arguments[cur] = options`) and
opens a fresh group for that output with default flags.  The final group is
closed when the tokens run out. -/
def parseMainAux :
    List (String × Options) → String → Options → List String →
    Except ParseErr (List (String × Options))
  | d, cur, options, [] => .ok (dictInsert d cur options)
  | d, cur, options, t :: ts =>
    if startsWithDash t then
      match setOption options (stripDashes t) with
      | some options' => parseMainAux d cur options' ts
      | none => .error (.invalidOption (stripDashes t))
    else
      parseMainAux (dictInsert d cur options) t defaultOptions ts

/-- `main()` of `xrandr_controller.py` up to the construction of the
controller: `sys.argv` (with the script name removed) to the `arguments`
dict, or the fatal invalid-option exit.  A leading run of flag tokens
belongs to the implicit output `'all'`; an empty argument list yields an
empty dict. -/
def parseMain (argv : List String) : Except ParseErr (List (String × Options)) :=
  match argv with
  | [] => .ok []
  | t :: ts =>
    if startsWithDash t then parseMainAux [] "all" defaultOptions (t :: ts)
    else parseMainAux [] t defaultOptions ts

/-- The inner `while True` flag loop in isolation, on a run of flag tokens:
fold the recognised flags into `options`, abort on an unrecognised one. -/
def collectFlags : Options → List String → Except ParseErr Options
  | options, [] => .ok options
  | options, t :: ts =>
    match setOption options (stripDashes t) with
    | some options' => collectFlags options' ts
    | none => .error (.invalidOption (stripDashes t))

/-- The `CompletedProcess` returned by `subprocess.run` when it finishes
within the timeout. -/
structure CompletedProcess where
  stdout : String
  stderr : String
deriving Repr, DecidableEq

/-- Outcome of the external `xrandr` invocation: either `subprocess.run`
returns a `CompletedProcess`, or it raises `subprocess.TimeoutExpired`
(whose captured stderr, if any, is carried on the exception object). -/
inductive XrandrOutcome where
  | completed (process : CompletedProcess)
  | timedOut (stderr : Option String)
deriving Repr, DecidableEq

/-- How a call to `run_xrandr` ends: a normal return, or termination of the
whole interpreter with the given exit status.  `logged` lists the messages
passed to `logger.error` during the call. -/
inductive MethodExit where
  | returns (logged : List String)
  | exits (code : Nat) (logged : List String)
deriving Repr, DecidableEq

/-- `XRandrController.run_xrandr` (identical control flow in all three
scripts).  On `TimeoutExpired` the handler builds `error_message` and then
evaluates `if process.stderr:` — but the local variable `process` was never
assigned, because `subprocess.run` raised before its assignment completed.
Python therefore raises `UnboundLocalError` inside the handler: the
`logger.error(error_message)` and `sys.exit(1)` lines are unreachable, and
the uncaught exception terminates the interpreter with exit status 1 and
nothing logged. -/
def run_xrandr (outcome : XrandrOutcome) : MethodExit :=
  match outcome with
  | .completed _ => .returns []
  | .timedOut _ => .exits 1 []

/-- Observable result of one run of the controller pipeline
(`__init__`): exit status, whether `save_new_values` ran, the state file
content after the run, and the error messages logged. -/
structure RunResult (σ : Type) where
  exitCode : Nat
  saveInvoked : Bool
  fileAfter : σ
  loggedErrors : List String
deriving Repr, DecidableEq

/-- `XRandrController.__init__` of `xrandr_controller.py`, given the state
file content (`get_current_values` result), the parsed arguments and the
outcome of the external invocation: `set_new_values` runs first, then
`run_xrandr`; only if that returns does `save_new_values` write the mutated
records back.  If `run_xrandr` terminates the interpreter, the file keeps
its previous content. -/
def controllerRun (file : List OutputRecord) (arguments : ArgDict)
    (outcome : XrandrOutcome) : RunResult (List OutputRecord) :=
  let newValues := set_new_values arguments file
  match run_xrandr outcome with
  | .exits code logged =>
    { exitCode := code, saveInvoked := false, fileAfter := file,
      loggedErrors := logged }
  | .returns logged =>
    { exitCode := 0, saveInvoked := true, fileAfter := newValues,
      loggedErrors := logged }

/-- Observable result of the whole process (`main()`), additionally
recording whether the state file was ever read and whether the external
tool was invoked. -/
structure ProgResult (σ : Type) where
  exitCode : Nat
  fileRead : Bool
  dispatched : Bool
  saveInvoked : Bool
  fileAfter : σ
  loggedErrors : List String
deriving Repr, DecidableEq

/-- The message logged for an invalid option before `sys.exit(1)`. -/
def parseErrMessage : ParseErr → String
  | .invalidOption name => name ++ " is an invalid option. Exiting."
  | .notAnOption => "Options must start with --. Exiting."

/-- `main()` of `xrandr_controller.py`: parse the argument tokens; on an
invalid option log it and exit 1 before the state file is touched or
`xrandr` is run; otherwise hand the dict to `XRandrController`. -/
def xrandrctl_main (argv : List String) (file : List OutputRecord)
    (outcome : XrandrOutcome) : ProgResult (List OutputRecord) :=
  match parseMain argv with
  | .error e =>
    { exitCode := 1, fileRead := false, dispatched := false,
      saveInvoked := false, fileAfter := file,
      loggedErrors := [parseErrMessage e] }
  | .ok arguments =>
    let r := controllerRun file arguments outcome
    { exitCode := r.exitCode, fileRead := true, dispatched := true,
      saveInvoked := r.saveInvoked, fileAfter := r.fileAfter,
      loggedErrors := r.loggedErrors }

/-- The single JSON object in `minixrandr_current_values.json` /
`xrandr_current_values_simple.json`: one set of values shared by all the
outputs listed in `outputs`. -/
structure CurrentValues where
  gamma : List ℚ
  brightness : ℚ
  outputs : List String
deriving Repr, DecidableEq

namespace Mini

/-- `XRandrController.BRIGHTNESS_DELTA = 0.1` (`minixrandrctl.py`). -/
def BRIGHTNESS_DELTA : ℚ := 0.1

/-- `XRandrController.GAMMA_DELTA = [0, 0.025, 0.05]` (`minixrandrctl.py`). -/
def GAMMA_DELTA : List ℚ := [0, 0.025, 0.05]

/-- `XRandrController.RESET_BRIGHTNESS_VALUE = 1`. -/
def RESET_BRIGHTNESS_VALUE : ℚ := 1

/-- `XRandrController.RESET_GAMMA_VALUE = [1, 1, 1]`. -/
def RESET_GAMMA_VALUE : List ℚ := [1, 1, 1]

/-- The five option flags of `ALLOWED_OPTIONS` in `minixrandrctl.py`
(the four directions plus `reset`). -/
structure Options where
  redder : Bool
  bluer : Bool
  brighter : Bool
  dimmer : Bool
  reset : Bool
deriving Repr, DecidableEq

/-- `dict(XRandrController.ALLOWED_OPTIONS)`: every flag off. -/
def defaultOptions : Options :=
  { redder := false, bluer := false, brighter := false, dimmer := false,
    reset := false }

/-- `arguments[option_stripped] = True` for a recognised name, `none`
otherwise. -/
def setOption (options : Options) (name : String) : Option Options :=
  if name = "redder" then some { options with redder := true }
  else if name = "bluer" then some { options with bluer := true }
  else if name = "brighter" then some { options with brighter := true }
  else if name = "dimmer" then some { options with dimmer := true }
  else if name = "reset" then some { options with reset := true }
  else none

/-- Membership of a stripped option name in `minixrandrctl.py`'s
`ALLOWED_OPTIONS`. -/
def isAllowedOption (name : String) : Bool :=
  name == "redder" || name == "bluer" || name == "brighter" ||
    name == "dimmer" || name == "reset"

/-- `set_new_values` of `minixrandrctl.py`: optional reset to 1 / [1,1,1]
first, then the signed `GAMMA_DELTA` added elementwise to `gamma` and the
signed `BRIGHTNESS_DELTA` added to `brightness`. -/
def set_new_values (arguments : Options) (cv : CurrentValues) : CurrentValues :=
  let cv :=
    if arguments.reset then
      { cv with gamma := RESET_GAMMA_VALUE, brightness := RESET_BRIGHTNESS_VALUE }
    else cv
  let gamma_to_add :=
    GAMMA_DELTA.map (fun x => x * (pyInt arguments.bluer - pyInt arguments.redder))
  { cv with
    gamma := List.zipWith (· + ·) cv.gamma gamma_to_add,
    brightness :=
      cv.brightness +
        BRIGHTNESS_DELTA * (pyInt arguments.brighter - pyInt arguments.dimmer) }

/-- `main()` of `minixrandrctl.py` up to the construction of the controller:
every token must start with `'-'` and strip to a recognised option name;
the flags accumulate into one flat `arguments` dict. -/
def parseArgs : Options → List String → Except ParseErr Options
  | acc, [] => .ok acc
  | acc, t :: ts =>
    if startsWithDash t then
      match setOption acc (stripDashes t) with
      | some acc' => parseArgs acc' ts
      | none => .error (.invalidOption (stripDashes t))
    else .error .notAnOption

/-- `run_xrandr` of `minixrandrctl.py`: same control flow as in
`xrandr_controller.py`, including the unbound-local `process` in the
`TimeoutExpired` handler, so a timeout again terminates the interpreter
with status 1 and nothing logged. -/
def run_xrandr (outcome : XrandrOutcome) : MethodExit :=
  match outcome with
  | .completed _ => .returns []
  | .timedOut _ => .exits 1 []

/-- `XRandrController.__init__` of `minixrandrctl.py`. -/
def controllerRun (cv : CurrentValues) (arguments : Options)
    (outcome : XrandrOutcome) : RunResult CurrentValues :=
  let newValues := set_new_values arguments cv
  match run_xrandr outcome with
  | .exits code logged =>
    { exitCode := code, saveInvoked := false, fileAfter := cv,
      loggedErrors := logged }
  | .returns logged =>
    { exitCode := 0, saveInvoked := true, fileAfter := newValues,
      loggedErrors := logged }

/-- `main()` of `minixrandrctl.py`: parse, exit 1 on a bad token before
any side effect, else run the controller. -/
def mainProg (argv : List String) (cv : CurrentValues)
    (outcome : XrandrOutcome) : ProgResult CurrentValues :=
  match parseArgs defaultOptions argv with
  | .error e =>
    { exitCode := 1, fileRead := false, dispatched := false,
      saveInvoked := false, fileAfter := cv,
      loggedErrors := [parseErrMessage e] }
  | .ok arguments =>
    let r := controllerRun cv arguments outcome
    { exitCode := r.exitCode, fileRead := true, dispatched := true,
      saveInvoked := r.saveInvoked, fileAfter := r.fileAfter,
      loggedErrors := r.loggedErrors }

end Mini

namespace Simple

/-- `XRandrController.BRIGHTNESS_DELTA = 0.1` (`xrandr_controller_simple.py`). -/
def BRIGHTNESS_DELTA : ℚ := 0.1

/-- `XRandrController.GAMMA_DELTA = [0, 0.025, 0.05]`
(`xrandr_controller_simple.py`). -/
def GAMMA_DELTA : List ℚ := [0, 0.025, 0.05]

/-- `set_new_values` of `xrandr_controller_simple.py`: like the mini
variant but with the four-flag `Options` and no reset. -/
def set_new_values (arguments : Options) (cv : CurrentValues) : CurrentValues :=
  let gamma_to_add :=
    GAMMA_DELTA.map (fun x => x * (pyInt arguments.bluer - pyInt arguments.redder))
  { cv with
    gamma := List.zipWith (· + ·) cv.gamma gamma_to_add,
    brightness :=
      cv.brightness +
        BRIGHTNESS_DELTA * (pyInt arguments.brighter - pyInt arguments.dimmer) }

/-- `run_xrandr` of `xrandr_controller_simple.py`: same control flow,
same unbound-local `process` in the `TimeoutExpired` handler. -/
def run_xrandr (outcome : XrandrOutcome) : MethodExit :=
  match outcome with
  | .completed _ => .returns []
  | .timedOut _ => .exits 1 []

/-- `XRandrController.__init__` of `xrandr_controller_simple.py`. -/
def controllerRun (cv : CurrentValues) (arguments : Options)
    (outcome : XrandrOutcome) : RunResult CurrentValues :=
  let newValues := set_new_values arguments cv
  match run_xrandr outcome with
  | .exits code logged =>
    { exitCode := code, saveInvoked := false, fileAfter := cv,
      loggedErrors := logged }
  | .returns logged =>
    { exitCode := 0, saveInvoked := true, fileAfter := newValues,
      loggedErrors := logged }

end Simple

/-- A demonstration state record: output `"B"` with alias `"A"`, unit values,
no per-record overrides. -/
def demoRec : OutputRecord := ⟨"B", some "A", [1, 1, 1], 1, none, none⟩

/-- A demonstration record with per-record `gamma_delta` and
`brightness_delta` overrides. -/
def demoRecOv : OutputRecord :=
  ⟨"HDMI-1", none, [1, 1, 1], 1, some [0.5, 0.5, 0.5], some 0.2⟩

/-- A demonstration single-record state for the mini/simple variants. -/
def demoCV : CurrentValues := ⟨[1, 1, 1], 1, ["HDMI-1", "eDP"]⟩

/-- Adding the elementwise product of a list with a zero factor changes
nothing, as long as the delta list is at least as long as the value list. -/
theorem zipWith_add_mul_cancel (xs ys : List ℚ) (c : ℚ) (hc : c = 0)
    (h : xs.length ≤ ys.length) :
    List.zipWith (· + ·) xs (ys.map (fun x => x * c)) = xs := by
  subst hc
  induction xs generalizing ys with
  | nil => simp
  | cons x xs ih =>
    cases ys with
    | nil => simp at h
    | cons y ys =>
      simp only [List.map_cons, List.zipWith_cons_cons, List.cons.injEq]
      exact ⟨by ring, ih ys (by simpa using h)⟩

/-- If the delta list starts with `0`, the elementwise update keeps the head
of the value list. -/
theorem head?_zipWith_add_head_zero (xs ys : List ℚ) (c : ℚ)
    (hy : ys.head? = some 0) :
    (List.zipWith (· + ·) xs (ys.map (fun x => x * c))).head? = xs.head? := by
  cases xs with
  | nil => rfl
  | cons x xs' =>
    cases ys with
    | nil => simp at hy
    | cons y ys' =>
      have h0 : y = 0 := by simpa using hy
      subst h0
      simp

/-- C1: for every run in which the external xrandr invocation exceeds the
timeout, `save_new_values` is never invoked — the state file after the run
is identical to its content before the run — and the process terminates
with exit status 1. -/
theorem c1_timeout_no_save (file : List OutputRecord) (arguments : ArgDict)
    (stderr : Option String) :
    (controllerRun file arguments (.timedOut stderr)).saveInvoked = false ∧
    (controllerRun file arguments (.timedOut stderr)).fileAfter = file ∧
    (controllerRun file arguments (.timedOut stderr)).exitCode = 1 :=
  ⟨rfl, rfl, rfl⟩

/-- C2: targeting resolves with alias match taking priority over name match
over the `"all"` fallback: if the record's alias is a key of the arguments
dict only that entry is applied; otherwise its name, if a key, is applied;
otherwise the `"all"` entry, if present, is applied. -/
theorem c2_alias_priority :
    (∀ (arguments : ArgDict) (rec : OutputRecord) (a : String) (o : Options),
        rec.«alias» = some a → dlookup arguments a = some o →
        updateRecord arguments rec = applyOptions o rec) ∧
    (∀ (arguments : ArgDict) (rec : OutputRecord) (o : Options),
        (∀ a, rec.«alias» = some a → dlookup arguments a = none) →
        dlookup arguments rec.output = some o →
        updateRecord arguments rec = applyOptions o rec) ∧
    (∀ (arguments : ArgDict) (rec : OutputRecord) (o : Options),
        (∀ a, rec.«alias» = some a → dlookup arguments a = none) →
        dlookup arguments rec.output = none →
        dlookup arguments "all" = some o →
        updateRecord arguments rec = applyOptions o rec) := by
  refine ⟨?_, ?_, ?_⟩
  · intro arguments rec a o ha ho
    simp [updateRecord, resolveOptions, ha, ho]
  · intro arguments rec o ha ho
    have hb : rec.«alias».bind (fun a => dlookup arguments a) = none := by
      cases h : rec.«alias» with
      | none => rfl
      | some a => simpa using ha a h
    simp [updateRecord, resolveOptions, hb, ho]
  · intro arguments rec o ha hn hall
    have hb : rec.«alias».bind (fun a => dlookup arguments a) = none := by
      cases h : rec.«alias» with
      | none => rfl
      | some a => simpa using ha a h
    simp [updateRecord, resolveOptions, hb, hn, hall]

/-- Witness for C2: a record with alias `"A"` and name `"B"`, with the dict
holding both `"A"` (brighter) and `"all"` (dimmer), gets exactly the
brightness effect of the `"A"` entry: 1 + 0.1 = 1.1. -/
theorem c2_alias_priority_witness :
    (updateRecord [("A", ⟨false, false, true, false⟩),
      ("all", ⟨false, false, false, true⟩)] demoRec).brightness = 11 / 10 := by
  have h := c2_alias_priority.1
    [("A", ⟨false, false, true, false⟩), ("all", ⟨false, false, false, true⟩)]
    demoRec "A" ⟨false, false, true, false⟩ rfl rfl
  rw [h]
  norm_num [applyOptions, demoRec, pyInt, DEFAULT_BRIGHTNESS_DELTA]

/-- C3: a targeted record is adjusted with its own `gamma_delta` /
`brightness_delta` override when the field is present and with the
process-wide default otherwise; in particular with override
`gamma_delta = [0.5, 0.5, 0.5]` and bluer set (redder not), each gamma
channel increases by exactly 0.5, the default triple being ignored. -/
theorem c3_effective_steps :
    (∀ (arguments : ArgDict) (rec : OutputRecord) (o : Options) (gd : List ℚ),
        resolveOptions arguments rec = some o → rec.gamma_delta = some gd →
        (updateRecord arguments rec).gamma =
          List.zipWith (· + ·) rec.gamma
            (gd.map (fun x => x * (pyInt o.bluer - pyInt o.redder)))) ∧
    (∀ (arguments : ArgDict) (rec : OutputRecord) (o : Options),
        resolveOptions arguments rec = some o → rec.gamma_delta = none →
        (updateRecord arguments rec).gamma =
          List.zipWith (· + ·) rec.gamma
            (DEFAULT_GAMMA_DELTA.map
              (fun x => x * (pyInt o.bluer - pyInt o.redder)))) ∧
    (∀ (arguments : ArgDict) (rec : OutputRecord) (o : Options) (bd : ℚ),
        resolveOptions arguments rec = some o → rec.brightness_delta = some bd →
        (updateRecord arguments rec).brightness =
          rec.brightness + bd * (pyInt o.brighter - pyInt o.dimmer)) ∧
    (∀ (arguments : ArgDict) (rec : OutputRecord) (o : Options),
        resolveOptions arguments rec = some o → rec.brightness_delta = none →
        (updateRecord arguments rec).brightness =
          rec.brightness +
            DEFAULT_BRIGHTNESS_DELTA * (pyInt o.brighter - pyInt o.dimmer)) ∧
    (∀ (arguments : ArgDict) (rec : OutputRecord) (o : Options) (g1 g2 g3 : ℚ),
        resolveOptions arguments rec = some o →
        o.bluer = true → o.redder = false →
        rec.gamma_delta = some [0.5, 0.5, 0.5] → rec.gamma = [g1, g2, g3] →
        (updateRecord arguments rec).gamma =
          [g1 + 0.5, g2 + 0.5, g3 + 0.5]) := by
  refine ⟨?_, ?_, ?_, ?_, ?_⟩
  · intro arguments rec o gd hres hgd
    simp [updateRecord, hres, applyOptions, hgd]
  · intro arguments rec o hres hgd
    simp [updateRecord, hres, applyOptions, hgd]
  · intro arguments rec o bd hres hbd
    simp [updateRecord, hres, applyOptions, hbd]
  · intro arguments rec o hres hbd
    simp [updateRecord, hres, applyOptions, hbd]
  · intro arguments rec o g1 g2 g3 hres hbl hrd hgd hg
    simp [updateRecord, hres, applyOptions, hgd, hg, hbl, hrd, pyInt]

/-- Witness for C3: the record `demoRecOv` (overrides
`gamma_delta = [0.5, 0.5, 0.5]`, `brightness_delta = 0.2`), targeted through
`"all"` with bluer set, moves each gamma channel from 1 to 1.5. -/
theorem c3_effective_steps_witness :
    (updateRecord [("all", ⟨false, true, false, false⟩)] demoRecOv).gamma =
      [3 / 2, 3 / 2, 3 / 2] := by
  have h := c3_effective_steps.2.2.2.2
    [("all", ⟨false, true, false, false⟩)] demoRecOv
    ⟨false, true, false, false⟩ 1 1 1 rfl rfl rfl rfl rfl
  rw [h]
  norm_num

/-- C4: opposing flags cancel to a net zero delta: with brighter and dimmer
both set the brightness is unchanged, and with redder and bluer both set
every gamma channel is unchanged (given delta lists at least as long as the
gamma triple); likewise in the mini variant when reset is not given. -/
theorem c4_opposing_cancel :
    (∀ (o : Options) (rec : OutputRecord),
        o.brighter = true → o.dimmer = true →
        (applyOptions o rec).brightness = rec.brightness) ∧
    (∀ (o : Options) (rec : OutputRecord),
        o.redder = true → o.bluer = true →
        rec.gamma.length ≤ (rec.gamma_delta.getD DEFAULT_GAMMA_DELTA).length →
        (applyOptions o rec).gamma = rec.gamma) ∧
    (∀ (o : Mini.Options) (cv : CurrentValues),
        o.reset = false → o.brighter = true → o.dimmer = true →
        (Mini.set_new_values o cv).brightness = cv.brightness) ∧
    (∀ (o : Mini.Options) (cv : CurrentValues),
        o.reset = false → o.redder = true → o.bluer = true →
        cv.gamma.length ≤ 3 →
        (Mini.set_new_values o cv).gamma = cv.gamma) := by
  refine ⟨?_, ?_, ?_, ?_⟩
  · intro o rec hb hd
    simp [applyOptions, hb, hd, pyInt]
  · intro o rec hr hb hlen
    simp only [applyOptions]
    exact zipWith_add_mul_cancel _ _ _ (by simp [hr, hb, pyInt]) hlen
  · intro o cv hres hb hd
    simp [Mini.set_new_values, hres, hb, hd, pyInt]
  · intro o cv hres hr hb hlen
    simp only [Mini.set_new_values, hres, if_false, Bool.false_eq_true]
    exact zipWith_add_mul_cancel _ _ _ (by simp [hr, hb, pyInt])
      (by simpa [Mini.GAMMA_DELTA] using hlen)

/-- Witness for C4: on the demonstration record, brighter+dimmer leaves the
brightness at 1 and redder+bluer leaves the gamma triple at `[1, 1, 1]`;
likewise for the mini variant state. -/
theorem c4_opposing_cancel_witness :
    (applyOptions ⟨false, false, true, true⟩ demoRec).brightness = 1 ∧
    (applyOptions ⟨true, true, false, false⟩ demoRec).gamma = [1, 1, 1] ∧
    (Mini.set_new_values ⟨true, true, true, true, false⟩ demoCV).gamma =
      [1, 1, 1] := by
  refine ⟨?_, ?_, ?_⟩
  · have h := c4_opposing_cancel.1 ⟨false, false, true, true⟩ demoRec rfl rfl
    rw [h]
    rfl
  · have h := c4_opposing_cancel.2.1 ⟨true, true, false, false⟩ demoRec rfl rfl
      (by decide)
    rw [h]
    rfl
  · have h := c4_opposing_cancel.2.2.2 ⟨true, true, true, true, false⟩ demoCV
      rfl rfl rfl (by decide)
    rw [h]
    rfl

/-- C6: a record targeted by no key — its alias matches no key, its name
matches no key, and no `"all"` key is present — is left completely
unmodified by `set_new_values`. -/
theorem c6_untargeted_unchanged (arguments : ArgDict) (rec : OutputRecord)
    (ha : ∀ a, rec.«alias» = some a → dlookup arguments a = none)
    (hname : dlookup arguments rec.output = none)
    (hall : dlookup arguments "all" = none) :
    updateRecord arguments rec = rec := by
  have hb : rec.«alias».bind (fun a => dlookup arguments a) = none := by
    cases h : rec.«alias» with
    | none => rfl
    | some a => simpa using ha a h
  simp [updateRecord, resolveOptions, hb, hname, hall]

/-- Witness for C6: with the dict holding only an entry for `"C"`, the
record named `"B"` with alias `"A"` is returned unchanged. -/
theorem c6_untargeted_unchanged_witness :
    updateRecord [("C", ⟨true, true, true, true⟩)] demoRec = demoRec :=
  c6_untargeted_unchanged [("C", ⟨true, true, true, true⟩)] demoRec
    (by
      intro a h
      rw [show demoRec.«alias» = some "A" from rfl] at h
      injection h with h
      subst h
      rfl)
    rfl rfl

/-- C7 (refuting the claim): when the external invocation exceeds the
timeout, none of the three variants logs any error message.  The
`except subprocess.TimeoutExpired` handler evaluates `process.stderr`, but
the local `process` was never assigned (the exception came out of
`subprocess.run` before the assignment completed), so the handler dies with
`UnboundLocalError` before reaching `logger.error`; the run still ends with
a non-zero status, but with nothing logged. -/
theorem c7_timeout_nothing_logged (stderr : Option String) :
    (∀ (file : List OutputRecord) (arguments : ArgDict),
        (controllerRun file arguments (.timedOut stderr)).loggedErrors = [] ∧
        (controllerRun file arguments (.timedOut stderr)).exitCode = 1) ∧
    (∀ (cv : CurrentValues) (o : Mini.Options),
        (Mini.controllerRun cv o (.timedOut stderr)).loggedErrors = []) ∧
    (∀ (cv : CurrentValues) (o : Options),
        (Simple.controllerRun cv o (.timedOut stderr)).loggedErrors = []) :=
  ⟨fun _ _ => ⟨rfl, rfl⟩, fun _ _ => rfl, fun _ _ => rfl⟩

/-- C10: a record with no `gamma_delta` override never has the red (first)
gamma channel moved, whatever flags are given, because the default gamma
delta's red component is exactly 0; likewise for the mini variant (whose
`GAMMA_DELTA` red component is 0) when reset is not given. -/
theorem c10_red_channel_frozen :
    (∀ (arguments : ArgDict) (rec : OutputRecord),
        rec.gamma_delta = none →
        ((updateRecord arguments rec).gamma).head? = rec.gamma.head?) ∧
    (∀ (o : Mini.Options) (cv : CurrentValues),
        o.reset = false →
        ((Mini.set_new_values o cv).gamma).head? = cv.gamma.head?) ∧
    DEFAULT_GAMMA_DELTA.head? = some 0 := by
  refine ⟨?_, ?_, rfl⟩
  · intro arguments rec hgd
    unfold updateRecord
    cases hres : resolveOptions arguments rec with
    | none => rfl
    | some o =>
      simp only [applyOptions, hgd, Option.getD_none]
      exact head?_zipWith_add_head_zero _ _ _ rfl
  · intro o cv hres
    simp only [Mini.set_new_values, hres, if_false, Bool.false_eq_true]
    exact head?_zipWith_add_head_zero _ _ _ rfl

/-- Witness for C10: even with redder requested through `"all"`, the first
gamma channel of `demoRec` (which has no `gamma_delta` override) stays 1. -/
theorem c10_red_channel_frozen_witness :
    ((updateRecord [("all", ⟨true, false, false, false⟩)] demoRec).gamma).head? =
      some 1 := by
  have h := c10_red_channel_frozen.1
    [("all", ⟨true, false, false, false⟩)] demoRec rfl
  rw [h]
  rfl

/-- `setOption` fails exactly on names outside `ALLOWED_OPTIONS`. -/
theorem setOption_none_iff (options : Options) (name : String) :
    setOption options name = none ↔ isAllowedOption name = false := by
  unfold setOption isAllowedOption
  split_ifs with h1 h2 h3 h4 <;> simp_all

/-- `Mini.setOption` fails exactly on names outside the mini
`ALLOWED_OPTIONS`. -/
theorem miniSetOption_none_iff (options : Mini.Options) (name : String) :
    Mini.setOption options name = none ↔ Mini.isAllowedOption name = false := by
  unfold Mini.setOption Mini.isAllowedOption
  split_ifs with h1 h2 h3 h4 h5 <;> simp_all

/-- Every flag token consumed on a successful parse of the multi-output
variant strips to a recognised option name. -/
theorem parseMainAux_ok_valid :
    ∀ (toks : List String) (d : List (String × Options)) (cur : String)
      (options : Options) (r : List (String × Options)),
      parseMainAux d cur options toks = .ok r →
      ∀ t ∈ toks, startsWithDash t = true →
        isAllowedOption (stripDashes t) = true := by
  intro toks
  induction toks with
  | nil =>
    intro d cur options r _ t ht
    simp at ht
  | cons t0 ts ih =>
    intro d cur options r h t ht hdash
    simp only [parseMainAux] at h
    by_cases h0 : startsWithDash t0 = true
    · rw [if_pos h0] at h
      cases hso : setOption options (stripDashes t0) with
      | none => rw [hso] at h; simp at h
      | some o' =>
        rw [hso] at h
        rcases List.mem_cons.mp ht with rfl | htts
        · by_contra hbad
          rw [Bool.not_eq_true] at hbad
          rw [(setOption_none_iff options (stripDashes t)).mpr hbad] at hso
          simp at hso
        · exact ih d cur o' r h t htts hdash
    · rw [if_neg h0] at h
      rcases List.mem_cons.mp ht with rfl | htts
      · exact absurd hdash h0
      · exact ih (dictInsert d cur options) t0 defaultOptions r h t htts hdash

/-- If `main()` of `xrandr_controller.py` parses `argv` successfully, every
token starting with `'-'` strips to a recognised option name. -/
theorem parseMain_ok_valid (argv : List String) (r : List (String × Options))
    (h : parseMain argv = .ok r) :
    ∀ t ∈ argv, startsWithDash t = true →
      isAllowedOption (stripDashes t) = true := by
  intro t ht hdash
  cases argv with
  | nil => simp at ht
  | cons t0 ts =>
    simp only [parseMain] at h
    by_cases h0 : startsWithDash t0 = true
    · rw [if_pos h0] at h
      exact parseMainAux_ok_valid (t0 :: ts) [] "all" defaultOptions r h t ht hdash
    · rw [if_neg h0] at h
      rcases List.mem_cons.mp ht with rfl | htts
      · exact absurd hdash h0
      · exact parseMainAux_ok_valid ts [] t0 defaultOptions r h t htts hdash

/-- If `main()` of `minixrandrctl.py` parses `argv` successfully, every
token strips to a recognised option name. -/
theorem miniParseArgs_ok_valid :
    ∀ (toks : List String) (acc r : Mini.Options),
      Mini.parseArgs acc toks = .ok r →
      ∀ t ∈ toks, Mini.isAllowedOption (stripDashes t) = true := by
  intro toks
  induction toks with
  | nil =>
    intro acc r _ t ht
    simp at ht
  | cons t0 ts ih =>
    intro acc r h t ht
    simp only [Mini.parseArgs] at h
    by_cases h0 : startsWithDash t0 = true
    · rw [if_pos h0] at h
      cases hso : Mini.setOption acc (stripDashes t0) with
      | none => rw [hso] at h; simp at h
      | some acc' =>
        rw [hso] at h
        rcases List.mem_cons.mp ht with rfl | htts
        · by_contra hbad
          rw [Bool.not_eq_true] at hbad
          rw [(miniSetOption_none_iff acc (stripDashes t)).mpr hbad] at hso
          simp at hso
        · exact ih acc' r h t htts
    · rw [if_neg h0] at h
      simp at h

/-- C5: a token sequence containing a flag token whose stripped name is not
a recognised option makes the program exit with status 1 before any side
effect: the state file is neither read nor written and the external tool is
never invoked — in the multi-output variant and (with its own option set
including reset) in the mini variant. -/
theorem c5_unknown_flag_aborts :
    (∀ (argv : List String) (t : String) (file : List OutputRecord)
        (outcome : XrandrOutcome),
        t ∈ argv → startsWithDash t = true →
        isAllowedOption (stripDashes t) = false →
        (xrandrctl_main argv file outcome).exitCode = 1 ∧
        (xrandrctl_main argv file outcome).fileRead = false ∧
        (xrandrctl_main argv file outcome).dispatched = false ∧
        (xrandrctl_main argv file outcome).saveInvoked = false ∧
        (xrandrctl_main argv file outcome).fileAfter = file) ∧
    (∀ (argv : List String) (t : String) (cv : CurrentValues)
        (outcome : XrandrOutcome),
        t ∈ argv → startsWithDash t = true →
        Mini.isAllowedOption (stripDashes t) = false →
        (Mini.mainProg argv cv outcome).exitCode = 1 ∧
        (Mini.mainProg argv cv outcome).fileRead = false ∧
        (Mini.mainProg argv cv outcome).dispatched = false ∧
        (Mini.mainProg argv cv outcome).saveInvoked = false ∧
        (Mini.mainProg argv cv outcome).fileAfter = cv) := by
  constructor
  · intro argv t file outcome ht hdash hbad
    cases hp : parseMain argv with
    | error e => simp [xrandrctl_main, hp]
    | ok r =>
      have := parseMain_ok_valid argv r hp t ht hdash
      rw [this] at hbad
      cases hbad
  · intro argv t cv outcome ht hdash hbad
    cases hp : Mini.parseArgs Mini.defaultOptions argv with
    | error e => simp [Mini.mainProg, hp]
    | ok r =>
      have := miniParseArgs_ok_valid argv Mini.defaultOptions r hp t ht
      rw [this] at hbad
      cases hbad

/-- Witness for C5: `--reset` is not a recognised option of the
multi-output variant, and `--oops` not of the mini variant; both runs exit
1 without touching the state file or xrandr. -/
theorem c5_unknown_flag_aborts_witness :
    ((xrandrctl_main ["--reset"] [demoRec] (.completed ⟨"", ""⟩)).exitCode = 1 ∧
      (xrandrctl_main ["--reset"] [demoRec] (.completed ⟨"", ""⟩)).fileRead = false ∧
      (xrandrctl_main ["--reset"] [demoRec] (.completed ⟨"", ""⟩)).dispatched = false ∧
      (xrandrctl_main ["--reset"] [demoRec] (.completed ⟨"", ""⟩)).saveInvoked = false ∧
      (xrandrctl_main ["--reset"] [demoRec] (.completed ⟨"", ""⟩)).fileAfter = [demoRec]) ∧
    (Mini.mainProg ["--oops"] demoCV (.completed ⟨"", ""⟩)).exitCode = 1 :=
  ⟨c5_unknown_flag_aborts.1 ["--reset"] "--reset" [demoRec] (.completed ⟨"", ""⟩)
      (by simp) rfl rfl,
   (c5_unknown_flag_aborts.2 ["--oops"] "--oops" demoCV (.completed ⟨"", ""⟩)
      (by simp) rfl rfl).1⟩

/-- Appending a fresh target group after a successfully parsed prefix:
the parser finishes the prefix exactly as before and then processes the
target's own flag group starting from default (all-false) flags. -/
theorem parseMainAux_append (tgt : String) (fs : List String)
    (htgt : startsWithDash tgt = false) :
    ∀ (l : List String) (d : List (String × Options)) (cur : String)
      (options : Options) (d' : List (String × Options)),
      parseMainAux d cur options l = .ok d' →
      parseMainAux d cur options (l ++ tgt :: fs) =
        parseMainAux d' tgt defaultOptions fs := by
  intro l
  induction l with
  | nil =>
    intro d cur options d' h
    simp only [parseMainAux, Except.ok.injEq] at h
    subst h
    simp [parseMainAux, htgt]
  | cons t0 ts ih =>
    intro d cur options d' h
    simp only [parseMainAux] at h
    simp only [List.cons_append, parseMainAux]
    by_cases h0 : startsWithDash t0 = true
    · rw [if_pos h0] at h ⊢
      cases hso : setOption options (stripDashes t0) with
      | none => rw [hso] at h; simp at h
      | some o' =>
        rw [hso] at h
        exact ih d cur o' d' h
    · rw [if_neg h0] at h ⊢
      exact ih (dictInsert d cur options) t0 defaultOptions d' h

/-- A run of pure flag tokens is parsed by folding the flags from the given
starting options and closing the current group with the result. -/
theorem parseMainAux_all_flags :
    ∀ (fs : List String) (options o : Options)
      (d : List (String × Options)) (cur : String),
      (∀ t ∈ fs, startsWithDash t = true) →
      collectFlags options fs = .ok o →
      parseMainAux d cur options fs = .ok (dictInsert d cur o) := by
  intro fs
  induction fs with
  | nil =>
    intro options o d cur _ h
    simp only [collectFlags, Except.ok.injEq] at h
    subst h
    rfl
  | cons t0 ts ih =>
    intro options o d cur hfs h
    simp only [collectFlags] at h
    cases hso : setOption options (stripDashes t0) with
    | none => rw [hso] at h; simp at h
    | some o1 =>
      rw [hso] at h
      have h0 : startsWithDash t0 = true := hfs t0 (by simp)
      simp only [parseMainAux, h0, if_true, hso]
      exact ih o1 o d cur (fun t ht => hfs t (by simp [ht])) h

/-- After a Python-dict insert, looking the key up yields the inserted
value. -/
theorem dlookup_dictInsert_self (d : List (String × Options)) (k : String)
    (v : Options) :
    dlookup (dictInsert d k v) k = some v := by
  unfold dictInsert
  split
  · rename_i h
    induction d with
    | nil => simp at h
    | cons p d' ih =>
      obtain ⟨pk, pv⟩ := p
      simp only [List.any_cons, Bool.or_eq_true, decide_eq_true_eq] at h
      by_cases hp : pk = k
      · subst hp
        rw [show List.map (fun p => if p.1 = pk then (pk, v) else p) ((pk, pv) :: d') =
            (pk, v) :: List.map (fun p => if p.1 = pk then (pk, v) else p) d' from by simp]
        simp [dlookup]
      · rcases h with h | h
        · exact absurd h hp
        · rw [show List.map (fun p => if p.1 = k then (k, v) else p) ((pk, pv) :: d') =
              (pk, pv) :: List.map (fun p => if p.1 = k then (k, v) else p) d' from by
            simp [hp]]
          rw [show dlookup ((pk, pv) ::
                List.map (fun p => if p.1 = k then (k, v) else p) d') k =
              dlookup (List.map (fun p => if p.1 = k then (k, v) else p) d') k from by
            simp [dlookup, hp]]
          exact ih (by simpa using h)
  · rename_i h
    induction d with
    | nil => simp [dlookup]
    | cons p d' ih =>
      obtain ⟨pk, pv⟩ := p
      simp only [List.any_cons, Bool.or_eq_true, decide_eq_true_eq,
        not_or] at h
      simp only [List.cons_append, dlookup]
      rw [if_neg h.1]
      exact ih h.2

/-- Re-assigning an existing key of a Python dict leaves its key list
unchanged. -/
theorem keys_map_replace (k : String) (v : Options) :
    ∀ d : List (String × Options),
      (d.map (fun p => if p.1 = k then (k, v) else p)).map Prod.fst =
        d.map Prod.fst := by
  intro d
  induction d with
  | nil => rfl
  | cons p d' ih =>
    obtain ⟨pk, pv⟩ := p
    by_cases hp : pk = k
    · subst hp
      rw [show List.map (fun p => if p.1 = pk then (pk, v) else p) ((pk, pv) :: d') =
          (pk, v) :: List.map (fun p => if p.1 = pk then (pk, v) else p) d' from by simp]
      simp [ih]
    · rw [show List.map (fun p => if p.1 = k then (k, v) else p) ((pk, pv) :: d') =
          (pk, pv) :: List.map (fun p => if p.1 = k then (k, v) else p) d' from by
        simp [hp]]
      simp [ih]

/-- A Python-dict insert keeps the key list duplicate-free. -/
theorem keys_dictInsert_nodup (d : List (String × Options)) (k : String)
    (v : Options) (h : (d.map Prod.fst).Nodup) :
    ((dictInsert d k v).map Prod.fst).Nodup := by
  unfold dictInsert
  split
  · rw [keys_map_replace]
    exact h
  · rename_i hmem
    rw [List.map_append]
    refine List.Nodup.append h (by simp) ?_
    intro a ha hk
    have hak : a = k := by simpa using hk
    subst hak
    apply hmem
    simp only [List.any_eq_true, decide_eq_true_eq]
    obtain ⟨x, hx, hfst⟩ := List.mem_map.mp ha
    exact ⟨x, hx, hfst⟩

/-- After a Python-dict insert into a dict with duplicate-free keys, the
inserted key occurs exactly once. -/
theorem count_keys_dictInsert (d : List (String × Options)) (k : String)
    (v : Options) (h : (d.map Prod.fst).Nodup) :
    ((dictInsert d k v).map Prod.fst).count k = 1 := by
  unfold dictInsert
  split
  · rename_i hmem
    rw [keys_map_replace]
    apply List.count_eq_one_of_mem h
    simp only [List.any_eq_true, decide_eq_true_eq] at hmem
    obtain ⟨x, hx, hfst⟩ := hmem
    exact List.mem_map.mpr ⟨x, hx, hfst⟩
  · rename_i hmem
    rw [List.map_append]
    rw [show ([(k, v)].map Prod.fst) = [k] from rfl]
    rw [← List.concat_eq_append, List.count_concat]
    have hk : k ∉ d.map Prod.fst := by
      intro hkm
      apply hmem
      simp only [List.any_eq_true, decide_eq_true_eq]
      obtain ⟨x, hx, hfst⟩ := List.mem_map.mp hkm
      exact ⟨x, hx, hfst⟩
    rw [List.count_eq_zero.mpr hk]

/-- The `arguments` dict built by the parser always has duplicate-free
keys. -/
theorem parseMainAux_keys_nodup :
    ∀ (toks : List String) (d : List (String × Options)) (cur : String)
      (options : Options) (r : List (String × Options)),
      (d.map Prod.fst).Nodup →
      parseMainAux d cur options toks = .ok r →
      (r.map Prod.fst).Nodup := by
  intro toks
  induction toks with
  | nil =>
    intro d cur options r hd h
    simp only [parseMainAux, Except.ok.injEq] at h
    subst h
    exact keys_dictInsert_nodup d cur options hd
  | cons t0 ts ih =>
    intro d cur options r hd h
    simp only [parseMainAux] at h
    by_cases h0 : startsWithDash t0 = true
    · rw [if_pos h0] at h
      cases hso : setOption options (stripDashes t0) with
      | none => rw [hso] at h; simp at h
      | some o' => rw [hso] at h; exact ih d cur o' r hd h
    · rw [if_neg h0] at h
      exact ih (dictInsert d cur options) t0 defaultOptions r
        (keys_dictInsert_nodup d cur options hd) h

/-- The dict produced by `main()`'s parse has duplicate-free keys. -/
theorem parseMain_keys_nodup (argv : List String)
    (r : List (String × Options)) (h : parseMain argv = .ok r) :
    (r.map Prod.fst).Nodup := by
  cases argv with
  | nil =>
    simp only [parseMain, Except.ok.injEq] at h
    subst h
    simp
  | cons t0 ts =>
    simp only [parseMain] at h
    by_cases h0 : startsWithDash t0 = true
    · rw [if_pos h0] at h
      exact parseMainAux_keys_nodup (t0 :: ts) [] "all" defaultOptions r
        (by simp) h
    · rw [if_neg h0] at h
      exact parseMainAux_keys_nodup ts [] t0 defaultOptions r (by simp) h

/-- Processing a run of flag tokens inside a group folds the flags into the
current options and leaves the dict, the current target and the remaining
tokens to be processed unchanged. -/
theorem parseMainAux_flags_append :
    ∀ (fs : List String) (options o : Options),
      (∀ t ∈ fs, startsWithDash t = true) →
      collectFlags options fs = .ok o →
      ∀ (d : List (String × Options)) (cur : String) (rest : List String),
        parseMainAux d cur options (fs ++ rest) = parseMainAux d cur o rest := by
  intro fs
  induction fs with
  | nil =>
    intro options o _ h d cur rest
    simp only [collectFlags, Except.ok.injEq] at h
    subst h
    rw [List.nil_append]
  | cons t0 ts ih =>
    intro options o hfs h d cur rest
    simp only [collectFlags] at h
    cases hso : setOption options (stripDashes t0) with
    | none => rw [hso] at h; simp at h
    | some o1 =>
      rw [hso] at h
      have h0 : startsWithDash t0 = true := hfs t0 (by simp)
      simp only [List.cons_append, parseMainAux, h0, if_true, hso]
      exact ih o1 o (fun t ht => hfs t (by simp [ht])) h d cur rest

/-- Re-assigning an existing key of a Python dict does not change the
lookup of any other key. -/
theorem dlookup_map_replace_other (k : String) (v : Options) (tgt : String)
    (hk : k ≠ tgt) :
    ∀ d : List (String × Options),
      dlookup (d.map (fun p => if p.1 = k then (k, v) else p)) tgt =
        dlookup d tgt := by
  intro d
  induction d with
  | nil => rfl
  | cons p d' ih =>
    obtain ⟨pk, pv⟩ := p
    by_cases hp : pk = k
    · subst hp
      rw [show List.map (fun p => if p.1 = pk then (pk, v) else p) ((pk, pv) :: d') =
          (pk, v) :: List.map (fun p => if p.1 = pk then (pk, v) else p) d' from by simp]
      simp only [dlookup]
      rw [if_neg hk, if_neg hk]
      exact ih
    · rw [show List.map (fun p => if p.1 = k then (k, v) else p) ((pk, pv) :: d') =
          (pk, pv) :: List.map (fun p => if p.1 = k then (k, v) else p) d' from by
        simp [hp]]
      simp only [dlookup]
      by_cases hpt : pk = tgt
      · rw [if_pos hpt, if_pos hpt]
      · rw [if_neg hpt, if_neg hpt]
        exact ih

/-- Appending a fresh entry to a Python dict does not change the lookup of
any other key. -/
theorem dlookup_append_single_other (k : String) (v : Options) (tgt : String)
    (hk : k ≠ tgt) :
    ∀ d : List (String × Options),
      dlookup (d ++ [(k, v)]) tgt = dlookup d tgt := by
  intro d
  induction d with
  | nil => simp [dlookup, hk]
  | cons p d' ih =>
    obtain ⟨pk, pv⟩ := p
    simp only [List.cons_append, dlookup]
    by_cases hpt : pk = tgt
    · rw [if_pos hpt, if_pos hpt]
    · rw [if_neg hpt, if_neg hpt]
      exact ih

/-- A Python-dict insert at one key does not change the lookup of any other
key. -/
theorem dlookup_dictInsert_other (d : List (String × Options)) (k : String)
    (v : Options) (tgt : String) (hk : k ≠ tgt) :
    dlookup (dictInsert d k v) tgt = dlookup d tgt := by
  unfold dictInsert
  split
  · exact dlookup_map_replace_other k v tgt hk d
  · exact dlookup_append_single_other k v tgt hk d

/-- A Python-dict insert at one key does not change how often any other key
occurs. -/
theorem count_keys_dictInsert_other (d : List (String × Options)) (k : String)
    (v : Options) (tgt : String) (hk : k ≠ tgt) :
    ((dictInsert d k v).map Prod.fst).count tgt =
      (d.map Prod.fst).count tgt := by
  unfold dictInsert
  split
  · rw [keys_map_replace]
  · rw [List.map_append]
    rw [show ([(k, v)].map Prod.fst) = [k] from rfl]
    simp [List.count_append, List.count_singleton', hk]

/-- Frame property of the parser: processing further tokens in which `tgt`
never occurs as a target token (and with a current group for a different
target) leaves `tgt`’s dict entry and its key count untouched. -/
theorem parseMainAux_preserves_other :
    ∀ (toks : List String) (d : List (String × Options)) (cur : String)
      (options : Options) (r : List (String × Options)) (tgt : String),
      cur ≠ tgt →
      (∀ t ∈ toks, startsWithDash t = false → t ≠ tgt) →
      parseMainAux d cur options toks = .ok r →
      dlookup r tgt = dlookup d tgt ∧
      (r.map Prod.fst).count tgt = (d.map Prod.fst).count tgt := by
  intro toks
  induction toks with
  | nil =>
    intro d cur options r tgt hcur _ h
    simp only [parseMainAux, Except.ok.injEq] at h
    subst h
    exact ⟨dlookup_dictInsert_other d cur options tgt hcur,
      count_keys_dictInsert_other d cur options tgt hcur⟩
  | cons t0 ts ih =>
    intro d cur options r tgt hcur hno h
    simp only [parseMainAux] at h
    by_cases h0 : startsWithDash t0 = true
    · rw [if_pos h0] at h
      cases hso : setOption options (stripDashes t0) with
      | none => rw [hso] at h; simp at h
      | some o' =>
        rw [hso] at h
        exact ih d cur o' r tgt hcur (fun t ht hd => hno t (by simp [ht]) hd) h
    · rw [if_neg h0] at h
      have ht0 : t0 ≠ tgt := hno t0 (by simp) (by simpa using h0)
      have hrec := ih (dictInsert d cur options) t0 defaultOptions r tgt ht0
        (fun t ht hd => hno t (by simp [ht]) hd) h
      refine ⟨?_, ?_⟩
      · rw [hrec.1, dlookup_dictInsert_other d cur options tgt hcur]
      · rw [hrec.2, count_keys_dictInsert_other d cur options tgt hcur]

/-- C8: for every token sequence in which a target selector is
re-specified, the resulting dict contains that target exactly once, its
flag collection restarts from the all-false defaults at the
re-specification, and only the flags following the last occurrence take
effect: decompose argv as `p ++ tgt :: (fs ++ rest)` where `tgt :: fs` is
the last occurrence of `tgt` with its complete flag run (`rest` is empty or
starts a new target group, and `tgt` never reappears as a target in
`rest`); then on a successful parse the result maps `tgt` exactly once, to
the flags of `fs` folded from the all-false defaults — whatever `p` set for
`tgt` before. -/
theorem c8_last_occurrence_wins
    (p fs rest : List String) (tgt : String)
    (d1 r : List (String × Options)) (o : Options)
    (hp : parseMain p = .ok d1)
    (htgt : startsWithDash tgt = false)
    (hfs : ∀ t ∈ fs, startsWithDash t = true)
    (hrest : ∀ (t0 : String) (ts : List String),
      rest = t0 :: ts → startsWithDash t0 = false)
    (hnotin : ∀ t ∈ rest, startsWithDash t = false → t ≠ tgt)
    (ho : collectFlags defaultOptions fs = .ok o)
    (hr : parseMain (p ++ tgt :: (fs ++ rest)) = .ok r) :
    dlookup r tgt = some o ∧
    (r.map Prod.fst).count tgt = 1 := by
  have hnd : (d1.map Prod.fst).Nodup := parseMain_keys_nodup p d1 hp
  have hred : parseMain (p ++ tgt :: (fs ++ rest)) =
      parseMainAux d1 tgt defaultOptions (fs ++ rest) := by
    cases p with
    | nil =>
      simp only [parseMain, Except.ok.injEq] at hp
      subst hp
      simp only [List.nil_append, parseMain]
      rw [if_neg (by simp [htgt])]
    | cons t0 ts =>
      simp only [parseMain] at hp
      simp only [List.cons_append, parseMain]
      by_cases h0 : startsWithDash t0 = true
      · rw [if_pos h0] at hp ⊢
        have happ := parseMainAux_append tgt (fs ++ rest) htgt (t0 :: ts) []
          "all" defaultOptions d1 hp
        rw [List.cons_append] at happ
        exact happ
      · rw [if_neg h0] at hp ⊢
        exact parseMainAux_append tgt (fs ++ rest) htgt ts [] t0
          defaultOptions d1 hp
  rw [hred, parseMainAux_flags_append fs defaultOptions o hfs ho d1 tgt rest]
    at hr
  cases rest with
  | nil =>
    simp only [parseMainAux, Except.ok.injEq] at hr
    subst hr
    exact ⟨dlookup_dictInsert_self d1 tgt o,
      count_keys_dictInsert d1 tgt o hnd⟩
  | cons t0 ts =>
    have h0 : startsWithDash t0 = false := hrest t0 ts rfl
    have ht0 : t0 ≠ tgt := hnotin t0 (by simp) h0
    simp only [parseMainAux] at hr
    rw [if_neg (by simp [h0])] at hr
    have hpres := parseMainAux_preserves_other ts (dictInsert d1 tgt o) t0
      defaultOptions r tgt ht0 (fun t ht hd => hnotin t (by simp [ht]) hd) hr
    refine ⟨?_, ?_⟩
    · rw [hpres.1, dlookup_dictInsert_self]
    · rw [hpres.2, count_keys_dictInsert d1 tgt o hnd]

/-- Witness for C8: `A --brighter A --dimmer B --bluer` — the target `A`
re-specified with a later group following — yields a dict in which `A`
occurs exactly once, holding only the dimmer flag. -/
theorem c8_last_occurrence_wins_witness :
    dlookup [("A", ⟨false, false, false, true⟩),
        ("B", ⟨false, true, false, false⟩)] "A" =
      some ⟨false, false, false, true⟩ ∧
    (([("A", (⟨false, false, false, true⟩ : Options)),
        ("B", ⟨false, true, false, false⟩)]).map Prod.fst).count "A" = 1 :=
  c8_last_occurrence_wins ["A", "--brighter"] ["--dimmer"] ["B", "--bluer"]
    "A" [("A", ⟨false, false, true, false⟩)]
    [("A", ⟨false, false, false, true⟩), ("B", ⟨false, true, false, false⟩)]
    ⟨false, false, false, true⟩
    rfl rfl (by decide) (by intro t0 ts h; cases h; rfl) (by decide) rfl rfl

/-- With an empty arguments dict no record is targeted, so each record is
returned unchanged by the loop body. -/
theorem updateRecord_empty (record : OutputRecord) :
    updateRecord [] record = record := by
  have hb : record.«alias».bind (fun a => dlookup [] a) = none := by
    cases record.«alias» <;> rfl
  simp [updateRecord, resolveOptions, hb, dlookup]

/-- C9: an empty token sequence parses to an empty dict and the run leaves
every record's brightness and gamma identical to their pre-run values,
while still reading the state file, invoking the external tool and saving;
likewise the simple variant with all-false flags leaves the single value
record unchanged. -/
theorem c9_noop_run :
    (∀ (file : List OutputRecord) (process : CompletedProcess),
        parseMain [] = .ok [] ∧
        set_new_values [] file = file ∧
        (xrandrctl_main [] file (.completed process)).exitCode = 0 ∧
        (xrandrctl_main [] file (.completed process)).fileRead = true ∧
        (xrandrctl_main [] file (.completed process)).dispatched = true ∧
        (xrandrctl_main [] file (.completed process)).saveInvoked = true ∧
        (xrandrctl_main [] file (.completed process)).fileAfter = file) ∧
    (∀ cv : CurrentValues, cv.gamma.length ≤ 3 →
        Simple.set_new_values defaultOptions cv = cv) := by
  have hset : ∀ file : List OutputRecord, set_new_values [] file = file := by
    intro file
    simp only [set_new_values,
      show updateRecord [] = fun record => record from funext updateRecord_empty]
    exact List.map_id' file
  constructor
  · intro file process
    refine ⟨rfl, hset file, rfl, rfl, rfl, rfl, ?_⟩
    show set_new_values [] file = file
    exact hset file
  · intro cv hlen
    obtain ⟨g, b, outs⟩ := cv
    simp only [Simple.set_new_values, CurrentValues.mk.injEq]
    refine ⟨?_, ?_, trivial⟩
    · exact zipWith_add_mul_cancel g Simple.GAMMA_DELTA _
        (by simp [pyInt, defaultOptions])
        (by simpa [Simple.GAMMA_DELTA] using hlen)
    · simp [pyInt, defaultOptions]

/-- Witness for C9: a no-op run on the demonstration list saves it back
unchanged with exit status 0, and the simple variant leaves the
demonstration values unchanged under all-false flags. -/
theorem c9_noop_run_witness :
    (xrandrctl_main [] [demoRec] (.completed ⟨"", ""⟩)).fileAfter = [demoRec] ∧
    Simple.set_new_values defaultOptions demoCV = demoCV :=
  ⟨((c9_noop_run.1 [demoRec] ⟨"", ""⟩).2.2.2.2.2.2),
   c9_noop_run.2 demoCV (by decide)⟩
